import Mathlib

/-!
Verification development for the scout-bot repository (a Discord bot that
resolves EA FC Pro Clubs teams and assembles scouting-report prompts).

The JavaScript source is shallowly embedded: JSON-ish runtime values become
the inductive `JValue`, JavaScript coercions (truthiness, `||`, `??`,
`String(...)`, `Number(...) || 0`) become explicit total functions, the
module-level `pendingScoutChoices` Map becomes an association list with
`Map`-style get/set/delete, and each network fetch becomes an explicit input
(`Option JValue` for settled promises, `FetchOutcome` for raw responses).
Throwing is modelled with `Except`; the OpenAI request is modelled by the
`ReportCall` value a successful run would send.
-/

namespace ScoutBot

/-- Model of a JavaScript/JSON runtime value as it flows through the bot.
`circular` stands for a (truthy, object-typed) value on which
`JSON.stringify` throws, e.g. an object with a circular reference.
`undefined` is collapsed into `null`: the source only ever distinguishes the
two through `??` and truthiness, which treat them identically. -/
inductive JValue where
  | null
  | bool (b : Bool)
  | num (n : Int)
  | str (s : String)
  | arr (items : List JValue)
  | obj (fields : List (String × JValue))
  | circular
deriving Repr

/-- JavaScript truthiness of a value (`if (v)`). Arrays and objects are
always truthy, `0`, `""`, `false` and `null`/`undefined` are falsy. -/
def truthy : JValue → Bool
  | .null => false
  | .bool b => b
  | .num n => n != 0
  | .str s => s != ""
  | .arr _ => true
  | .obj _ => true
  | .circular => true

/-- Whether `typeof v === 'object'` holds for a truthy value
(arrays, plain objects and the circular stand-in). `null` also has
`typeof 'object'` in JavaScript, but every use in the source guards with
truthiness first, so the combined test is what matters. -/
def isObjType : JValue → Bool
  | .arr _ => true
  | .obj _ => true
  | .circular => true
  | _ => false

/-- `Array.isArray(v)`. -/
def isArrayJ : JValue → Bool
  | .arr _ => true
  | _ => false

/-- Accumulating decimal parse over characters, rejecting non-digits. -/
def parseDigitsAux : List Char → Nat → Option Nat
  | [], acc => some acc
  | c :: cs, acc =>
      if c.isDigit then parseDigitsAux cs (acc * 10 + (c.toNat - '0'.toNat))
      else none

/-- Decimal parse of a non-empty all-digit string, used to model numeric
array indexing (`arr[key]` with a numeric string key). -/
def strToNatJs (s : String) : Option Nat :=
  match s.data with
  | [] => none
  | l => parseDigitsAux l 0

/-- Property access `v[key]`, returning `null` for a missing property
(the source only reads missing properties behind truthiness guards, so
collapsing `undefined` into `null` is faithful there). On arrays a numeric
string key indexes the elements, as in JavaScript. -/
def jsGet : JValue → String → JValue
  | .obj fields, key => ((fields.lookup key).getD .null)
  | .arr items, key =>
      match strToNatJs key with
      | some i => (items.get? i).getD .null
      | none => .null
  | _, _ => .null

/-- JavaScript `a || b`: the first operand when truthy, otherwise the second. -/
def jsOr (a b : JValue) : JValue :=
  if truthy a then a else b

/-- JavaScript `a ?? b` under the `undefined = null` collapse. -/
def jsCoalesce (a b : JValue) : JValue :=
  match a with
  | .null => b
  | v => v

/-- `Object.values(v)` for the shapes the source feeds it. -/
def objValues : JValue → List JValue
  | .obj fields => fields.map Prod.snd
  | .arr items => items
  | _ => []

/-- `Object.keys(v)` for the shapes the source feeds it. -/
def objKeys : JValue → List String
  | .obj fields => fields.map Prod.fst
  | .arr items => (List.range items.length).map toString
  | _ => []

mutual
/-- String conversion `String(v)` (array elements convert recursively, with
`null` elements rendering as the empty string, as in
`Array.prototype.toString`). -/
def jsToString : JValue → String
  | .null => "null"
  | .bool b => if b then "true" else "false"
  | .num n => toString n
  | .str s => s
  | .arr items => jsToStringArrItems items
  | .obj _ => "[object Object]"
  | .circular => "[object Object]"
/-- Comma-joined element strings for `Array.prototype.toString`. -/
def jsToStringArrItems : List JValue → String
  | [] => ""
  | [v] => (match v with | .null => "" | w => jsToString w)
  | v :: rest =>
      (match v with | .null => "" | w => jsToString w) ++ "," ++
        jsToStringArrItems rest
end

/-- Models `Number(v) || 0` for the value shapes the EA payloads carry
(integers, decimal strings, and missing/null data). Values that coerce to
`NaN` land on `0` through the `|| 0`. -/
def jsNumberOr0 : JValue → Int
  | .num n => n
  | .str s => (s.toInt?).getD 0
  | .bool b => if b then 1 else 0
  | _ => 0

/-- The `isNonEmpty` helper of `src/index.js` (second variant): `null`
and `undefined` are empty, an array is non-empty iff it has elements, an
object iff it has keys, and every other value counts as non-empty. -/
def isNonEmpty : JValue → Bool
  | .null => false
  | .arr items => items.length > 0
  | .obj fields => fields.length > 0
  | .circular => true
  | _ => true

/-- Escape of one character inside a JSON string literal. -/
def escChar (c : Char) : String :=
  if c = '"' then "\\\""
  else if c = '\\' then "\\\\"
  else if c = '\n' then "\\n"
  else if c = '\r' then "\\r"
  else if c = '\t' then "\\t"
  else String.singleton c

/-- Escape of a character list for a JSON string literal body. -/
def escChars : List Char → String
  | [] => ""
  | c :: cs => escChar c ++ escChars cs

/-- Escape of a string for a JSON string literal body. -/
def escString (s : String) : String :=
  escChars s.data

mutual
/-- Model of `JSON.stringify(v)`: `some` of the serialized text, or `none`
when serialization throws (the `circular` stand-in anywhere in the value). -/
def jsonStringifyCore : JValue → Option String
  | .null => some "null"
  | .bool b => some (if b then "true" else "false")
  | .num n => some (toString n)
  | .str s => some ("\"" ++ escString s ++ "\"")
  | .arr items => do pure ("[" ++ (← jsonArrItems items) ++ "]")
  | .obj fields => do pure ("\x7b" ++ (← jsonObjItems fields) ++ "\x7d")
  | .circular => none
/-- Comma-joined serialized array elements. -/
def jsonArrItems : List JValue → Option String
  | [] => some ""
  | [v] => jsonStringifyCore v
  | v :: rest => do
      pure ((← jsonStringifyCore v) ++ "," ++ (← jsonArrItems rest))
/-- Comma-joined serialized object entries. -/
def jsonObjItems : List (String × JValue) → Option String
  | [] => some ""
  | [(k, v)] => do
      pure ("\"" ++ escString k ++ "\":" ++ (← jsonStringifyCore v))
  | (k, v) :: rest => do
      pure ("\"" ++ escString k ++ "\":" ++ (← jsonStringifyCore v) ++ "," ++
        (← jsonObjItems rest))
end

/-- JavaScript `s.slice(0, n)` on strings. -/
def jsSlice (s : String) (n : Nat) : String :=
  String.mk (s.data.take n)

/-- The `safeJsonStringify(obj, maxChars)` helper of `src/index.js` (second
variant). `maxChars = 0` plays the role of both an absent and a zero
`maxChars`, exactly as the source's `!maxChars` / `maxChars || 8000` do.
The function is total: the `catch` branch falls back to
`String(obj || '').slice(0, maxChars || 8000)`. -/
def safeJsonStringify (obj : JValue) (maxChars : Nat) : String :=
  match jsonStringifyCore obj with
  | some s =>
      if maxChars = 0 then s
      else if s.length > maxChars then jsSlice s maxChars else s
  | none =>
      jsSlice (jsToString (jsOr obj (.str "")))
        (if maxChars = 0 then 8000 else maxChars)

/-! ## Club resolver (`searchClubsAcrossPlatforms`, second variant of `src/index.js`) -/

/-- The `FC_PLATFORMS` constant: the partitions searched. -/
def FC_PLATFORMS : List String := ["common-gen5", "common-gen4"]

/-- One club search hit, as pushed onto `results` inside
`searchClubsAcrossPlatforms`. `name`, `region` and `division` keep whatever
runtime value the `||` chains produced. -/
structure ClubCandidate where
  fcPlatform : String
  clubId : String
  name : JValue
  region : JValue
  division : JValue
  raw : JValue

/-- The dedup key `` `${r.fcPlatform}:${r.clubId}` ``. -/
def clubKey (c : ClubCandidate) : String :=
  c.fcPlatform ++ ":" ++ c.clubId

/-- The dedup loop at the end of `searchClubsAcrossPlatforms`: walk the
collected results keeping the first hit per `clubKey`, with `seen` the set of
already-emitted keys. -/
def dedupClubs : List ClubCandidate → List String → List ClubCandidate
  | [], _ => []
  | r :: rest, seen =>
      if clubKey r ∈ seen then dedupClubs rest seen
      else r :: dedupClubs rest (clubKey r :: seen)

/-- The resolver's dedup stage: concatenate the per-partition result lists
(in the order the rows were pushed onto the shared `results` array) and
deduplicate by `clubKey`, first occurrence winning. -/
def resolveDedup (parts : List (List ClubCandidate)) : List ClubCandidate :=
  dedupClubs parts.flatten []

/-- One row of the leaderboard payload turned into a candidate, mirroring
the `for (const row of rows)` body: unwrap `clubInfo`/`clubinfo`/`info`,
skip rows without an object-typed info or with an empty stringified club id,
and keep the `||`-chain fallbacks for name/region/division. -/
def parseRow (fcPlatform q : String) (row : JValue) : Option ClubCandidate :=
  let info := jsOr (jsGet row "clubInfo")
    (jsOr (jsGet row "clubinfo") (jsOr (jsGet row "info") row))
  if !(truthy info && isObjType info) then none
  else
    let clubId := jsToString (jsCoalesce (jsGet info "clubId")
      (jsCoalesce (jsGet info "clubID")
        (jsCoalesce (jsGet info "id")
          (jsCoalesce (jsGet info "club") (.str "")))))
    if clubId = "" then none
    else some
      { fcPlatform := fcPlatform
        clubId := clubId
        name := jsOr (jsGet info "name")
          (jsOr (jsGet info "clubName") (jsOr (jsGet info "clubname") (.str q)))
        region := jsOr (jsGet info "regionName")
          (jsOr (jsGet info "region") (jsOr (jsGet info "countryName") .null))
        division := jsOr (jsGet info "division")
          (jsOr (jsGet info "leagueDivision")
            (jsOr (jsGet info "bestDivision") .null))
        raw := info }

/-- Outcome of the HTTP GET against one platform partition.
`netError` covers a network error or timeout (axios threw); `response`
carries the status and body (`validateStatus: () => true`, so non-200
statuses arrive here rather than throwing). -/
inductive FetchOutcome where
  | netError
  | response (status : Nat) (body : JValue)

/-- Whether the partition fetch failed in the sense of §4.1 of the spec:
the request threw, or came back with a non-success status. -/
def fetchFailed : FetchOutcome → Bool
  | .netError => true
  | .response status _ => status != 200

/-- The per-partition body of `searchClubsAcrossPlatforms`: the candidate
rows this partition contributes to the shared `results` array. A thrown
request is caught (contributing nothing), a non-200 status or falsy body
returns early, a payload wrapped under key `"0"` is unwrapped, and rows are
the array elements or the object-typed `Object.values`. -/
def partitionRows (q fcPlatform : String) (o : FetchOutcome) : List ClubCandidate :=
  match o with
  | .netError => []
  | .response status body =>
      if status != 200 || !truthy body then []
      else
        let data :=
          if truthy body && isObjType body && truthy (jsGet body "0") then
            jsGet body "0"
          else body
        let rows :=
          match data with
          | .arr items => items
          | _ =>
              if truthy data && isObjType data then
                (objValues data).filter (fun v => truthy v && isObjType v)
              else []
        rows.filterMap (parseRow fcPlatform q)

/-- `searchClubsAcrossPlatforms(query)` as a function of the query and of
the per-partition fetch outcomes: trim the query (empty short-circuits to
`[]` with no network call), collect every partition's rows, and deduplicate
by `clubKey`. All partition failures are absorbed inside `partitionRows`,
so the function always returns a plain list — it cannot raise. -/
def searchClubsAcrossPlatforms (query : String)
    (fetch : String → FetchOutcome) : List ClubCandidate :=
  let q := query.trim
  if q = "" then []
  else resolveDedup (FC_PLATFORMS.map fun p => partitionRows q p (fetch p))

/-! ## Pending-selection store (`pendingScoutChoices`) and interaction flow -/

/-- The value stored in `pendingScoutChoices` for one user. -/
structure PendingState where
  query : String
  results : List ClubCandidate

/-- The `pendingScoutChoices` `Map<userId, state>`, as an association list
in insertion order. A real `Map` never holds two entries with one key; the
operations below preserve that invariant (`storeNodupKeys`). -/
def PendingStore := List (String × PendingState)

/-- `Map.prototype.get`. -/
def storeGet : PendingStore → String → Option PendingState
  | [], _ => none
  | (k, v) :: rest, u => if k = u then some v else storeGet rest u

/-- `Map.prototype.set`: replace the entry in place when the key exists,
append otherwise. -/
def storeSet : PendingStore → String → PendingState → PendingStore
  | [], u, s => [(u, s)]
  | (k, v) :: rest, u, s =>
      if k = u then (u, s) :: rest else (k, v) :: storeSet rest u s

/-- `Map.prototype.delete` (on a store with unique keys). -/
def storeDelete : PendingStore → String → PendingStore
  | [], _ => []
  | (k, v) :: rest, u =>
      if k = u then rest else (k, v) :: storeDelete rest u

/-- The `Map` invariant: no key twice. -/
def storeNodupKeys (st : PendingStore) : Prop :=
  (st.map Prod.fst).Nodup

/-- Number of entries a user currently owns. -/
def countKey (st : PendingStore) (u : String) : Nat :=
  (st.filter (fun e => e.1 == u)).length

/-- What the `/scoutclub` handler does after `searchClubsAcrossPlatforms`
returned. `noMatch` renders the "could not find any clubs" reply,
`singleReport c` proceeds straight to `createScoutingReportFromId` for `c`,
and `askSelection top` presents the dropdown. -/
inductive CmdOutcome where
  | noMatch
  | singleReport (c : ClubCandidate)
  | askSelection (top : List ClubCandidate)

/-- The `/scoutclub` command handler's search branch (second variant of
`src/index.js`, after `const matches = await searchClubsAcrossPlatforms`):
zero matches reply and stop; exactly one goes straight to the report; two or
more store the top five in `pendingScoutChoices` and ask the user to pick.
Returns the outcome together with the updated store. -/
def scoutclubCommand (st : PendingStore) (userId query : String)
    (found : List ClubCandidate) : CmdOutcome × PendingStore :=
  match found with
  | [] => (.noMatch, st)
  | [c] => (.singleReport c, st)
  | _ =>
      let top := found.take 5
      (.askSelection top, storeSet st userId ⟨query, top⟩)

/-- What the `scoutclub_pick` select-menu handler replies with.
`resolvedPick c` proceeds to `createScoutingReportFromId` for `c`. -/
inductive SelectOutcome where
  | noPending
  | invalidSelection
  | resolvedPick (c : ClubCandidate)

/-- The `scoutclub_pick` select-menu handler: look up the pending entry
(replying "No pending club selection" when absent), index into the stored
list with the parsed menu value (`index` models
`parseInt(interaction.values[0], 10)`), reply "Invalid club selection" when
`state.results[index]` is undefined, and only then delete the entry and
generate the report. Returns the outcome and the updated store. -/
def scoutclubPick (st : PendingStore) (userId : String) (index : Nat) :
    SelectOutcome × PendingStore :=
  match storeGet st userId with
  | none => (.noPending, st)
  | some state =>
      match state.results[index]? with
      | none => (.invalidSelection, st)
      | some chosen => (.resolvedPick chosen, storeDelete st userId)

/-! ## Report assembly (`fetchClubData` / `createScoutingReportFromId`,
second variant of `src/index.js`) -/

/-- The eight settled EA requests of `fetchClubData`, in declaration order.
`none` models a rejected promise (`Promise.allSettled` + `safeData` log the
failure and continue with `null`). -/
structure SettledResponses where
  info : Option JValue
  overallStats : Option JValue
  playoffAchievements : Option JValue
  membersCareer : Option JValue
  membersSeason : Option JValue
  leagueMatches : Option JValue
  playoffMatches : Option JValue
  friendlyMatches : Option JValue

/-- The `safeData` helper: the fulfilled value, or `null` for a rejection. -/
def safeData : Option JValue → JValue
  | some d => d
  | none => .null

/-- The `infoPayload` object. -/
structure InfoPayload where
  clubInfo : JValue
  leaderboardSeed : JValue

/-- The `statsPayload` object (field order is the object-literal order,
which `Object.values` follows). -/
structure StatsPayload where
  overallStats : JValue
  playoffAchievements : JValue
  membersCareer : JValue
  membersSeason : JValue

/-- The `matchesPayload` object. -/
structure MatchesPayload where
  leagueMatches : JValue
  playoffMatches : JValue
  friendlyMatches : JValue

/-- `Object.values(statsPayload)`. -/
def statsValues (s : StatsPayload) : List JValue :=
  [s.overallStats, s.playoffAchievements, s.membersCareer, s.membersSeason]

/-- `Object.values(matchesPayload)`. -/
def matchesValues (m : MatchesPayload) : List JValue :=
  [m.leagueMatches, m.playoffMatches, m.friendlyMatches]

/-- The `infoPayload` as the JSON value `safeJsonStringify` receives. -/
def infoPayloadJson (p : InfoPayload) : JValue :=
  .obj [("clubInfo", p.clubInfo), ("leaderboardSeed", p.leaderboardSeed)]

/-- The `statsPayload` as the JSON value `safeJsonStringify` receives. -/
def statsPayloadJson (s : StatsPayload) : JValue :=
  .obj [("overallStats", s.overallStats),
        ("playoffAchievements", s.playoffAchievements),
        ("membersCareer", s.membersCareer),
        ("membersSeason", s.membersSeason)]

/-- The `matchesPayload` as the JSON value `safeJsonStringify` receives. -/
def matchesPayloadJson (m : MatchesPayload) : JValue :=
  .obj [("leagueMatches", m.leagueMatches),
        ("playoffMatches", m.playoffMatches),
        ("friendlyMatches", m.friendlyMatches)]

/-- `fetchClubData(fcPlatform, clubId, leaderboardSeed)` after its eight
requests settled: normalize the info response (array → first element,
object → entry keyed by the club id, else the object itself) and bundle the
three payloads. -/
def fetchClubData (clubId : String) (leaderboardSeed : JValue)
    (r : SettledResponses) : InfoPayload × StatsPayload × MatchesPayload :=
  let infoRaw := safeData r.info
  let clubInfo :=
    if isArrayJ infoRaw then jsOr (jsGet infoRaw "0") .null
    else if truthy infoRaw && isObjType infoRaw then
      jsOr (jsGet infoRaw clubId) infoRaw
    else .null
  (⟨clubInfo, leaderboardSeed⟩,
   ⟨safeData r.overallStats, safeData r.playoffAchievements,
    safeData r.membersCareer, safeData r.membersSeason⟩,
   ⟨safeData r.leagueMatches, safeData r.playoffMatches,
    safeData r.friendlyMatches⟩)

/-- The typed failures `createScoutingReportFromId` can throw before any
OpenAI request: a missing API key, or the `insufficient_data`-coded error. -/
inductive ReportError where
  | noApiKey
  | insufficientData

/-- The arguments of the one `openai.responses.create` call a successful
run performs: the identifiers and the three size-bounded JSON sections that
`buildUserPrompt` embeds into the user prompt. Producing this value is the
model of "the Summarization Client is called". -/
structure ReportCall where
  displayName : String
  clubId : String
  fcPlatform : String
  infoStr : String
  statsStr : String
  matchesStr : String

/-- `createScoutingReportFromId(fcPlatform, clubId, displayName,
leaderboardSeed)` up to the OpenAI request, as a function of the settled EA
responses. Throwing is `Except.error`; `Except.ok` carries the prompt data
the OpenAI call would be made with. The character budgets 16000/64000/64000
are the literals at the `safeJsonStringify` call sites. -/
def createScoutingReportFromId (hasApiKey : Bool)
    (fcPlatform clubId displayName : String) (leaderboardSeed : JValue)
    (r : SettledResponses) : Except ReportError ReportCall :=
  if !hasApiKey then .error .noApiKey
  else
    let payloads := fetchClubData clubId leaderboardSeed r
    let hasStats := (statsValues payloads.2.1).any isNonEmpty
    let hasMatches := (matchesValues payloads.2.2).any isNonEmpty
    if !hasStats && !hasMatches then .error .insufficientData
    else
      .ok { displayName := displayName
            clubId := clubId
            fcPlatform := fcPlatform
            infoStr := safeJsonStringify (infoPayloadJson payloads.1) 16000
            statsStr := safeJsonStringify (statsPayloadJson payloads.2.1) 64000
            matchesStr := safeJsonStringify (matchesPayloadJson payloads.2.2) 64000 }

/-! ## Match-record summary (`computeRecord`) -/

/-- The record object `computeRecord` returns. -/
structure TeamRecord where
  played : Nat
  wins : Nat
  draws : Nat
  losses : Nat
  goalsFor : Int
  goalsAgainst : Int
  goalDiff : Int
deriving Repr, DecidableEq

/-- Whether the `computeRecord` loop skips this match record:
`if (!m || !m.clubs || !m.clubs[clubId]) continue`. -/
def skipMatch (clubId : String) (m : JValue) : Bool :=
  !(truthy m && truthy (jsGet m "clubs") && truthy (jsGet (jsGet m "clubs") clubId))

/-- One iteration of the `computeRecord` loop over the accumulator
`(wins, draws, losses, goalsFor, goalsAgainst)`. -/
def computeRecordStep (clubId : String)
    (acc : Nat × Nat × Nat × Int × Int) (m : JValue) :
    Nat × Nat × Nat × Int × Int :=
  if skipMatch clubId m then acc
  else
    let clubs := jsGet m "clubs"
    let me := jsGet clubs clubId
    let opp :=
      match (objKeys clubs).find? (fun id => id ≠ clubId) with
      | some oppId => if oppId = "" then JValue.null else jsGet clubs oppId
      | none => JValue.null
    let gf := jsNumberOr0 (jsGet me "goals")
    let ga := if truthy opp then jsNumberOr0 (jsGet opp "goals") else 0
    let (w, d, l, accGf, accGa) := acc
    if gf > ga then (w + 1, d, l, accGf + gf, accGa + ga)
    else if gf < ga then (w, d, l + 1, accGf + gf, accGa + ga)
    else (w, d + 1, l, accGf + gf, accGa + ga)

/-- `computeRecord(matches, clubId)` of `src/index.js` (second variant):
`null` for non-array input, otherwise tally wins/draws/losses and goals over
the match records, skipping records without an entry for `clubId`. -/
def computeRecord (ms : JValue) (clubId : String) : Option TeamRecord :=
  match ms with
  | .arr items =>
      let (w, d, l, gf, ga) :=
        items.foldl (computeRecordStep clubId) (0, 0, 0, 0, 0)
      some { played := w + d + l, wins := w, draws := d, losses := l,
             goalsFor := gf, goalsAgainst := ga, goalDiff := gf - ga }
  | _ => none

end ScoutBot

/-! ## The first variant (`src/unnamed/part_000`): `fetchClubData` caps the
league-match history at 20 records client-side. -/

namespace ScoutBot.V1

open ScoutBot

/-- `fetchClubData(platform, clubId)` of `src/unnamed/part_000`, as a
function of the three response bodies: normalize info and overall stats
(entry keyed by club id, else first array element, else the body), pick the
match array (entry keyed by club id when truthy, else the body when it is an
array), and cap it with `slice(0, 20)`. -/
def fetchClubData (clubId : String)
    (infoData overallData matchesData : JValue) :
    JValue × JValue × List JValue :=
  let info := jsOr
    (if truthy infoData then jsGet infoData clubId else infoData)
    (if isArrayJ infoData then jsGet infoData "0" else infoData)
  let overall := jsOr
    (if truthy overallData then jsGet overallData clubId else overallData)
    (if isArrayJ overallData then jsGet overallData "0" else overallData)
  let matchesArr := jsOr
    (if truthy matchesData then jsGet matchesData clubId else matchesData)
    (if isArrayJ matchesData then matchesData else .arr [])
  let capped :=
    match matchesArr with
    | .arr items => items.take 20
    | _ => []
  (info, overall, capped)

end ScoutBot.V1

/-! ## The third variant (`src/unnamed/part_001`): `createScoutingReport`
caps division matches at 20 and cup matches at 10, independently. -/

namespace ScoutBot.V2

open ScoutBot

/-- `recentDiv` of `createScoutingReport` in `src/unnamed/part_001`:
`Array.isArray(divMatches) ? divMatches.slice(0, 20) : []`. -/
def recentDivMatches (divMatches : JValue) : List JValue :=
  match divMatches with
  | .arr items => items.take 20
  | _ => []

/-- `recentCup` of `createScoutingReport` in `src/unnamed/part_001`:
`Array.isArray(cupMatches) ? cupMatches.slice(0, 10) : []`. -/
def recentCupMatches (cupMatches : JValue) : List JValue :=
  match cupMatches with
  | .arr items => items.take 10
  | _ => []

end ScoutBot.V2

namespace ScoutBot

/-! ## Store lemmas -/

/-- `storeGet` after `storeSet` on the same key sees the new value. -/
theorem storeGet_storeSet_self (st : PendingStore) (u : String)
    (s : PendingState) : storeGet (storeSet st u s) u = some s := by
  induction st with
  | nil => simp [storeSet, storeGet]
  | cons e rest ih =>
      obtain ⟨k, v⟩ := e
      by_cases hk : k = u
      · subst hk
        simp [storeSet, storeGet]
      · simp [storeSet, storeGet, hk, ih]

/-- The key list after a `storeSet`: unchanged when the key was present,
the key appended when it was not. -/
theorem keys_storeSet (st : PendingStore) (u : String) (s : PendingState) :
    (storeSet st u s).map Prod.fst =
      if u ∈ st.map Prod.fst then st.map Prod.fst
      else st.map Prod.fst ++ [u] := by
  induction st with
  | nil => simp [storeSet]
  | cons e rest ih =>
      obtain ⟨k, v⟩ := e
      by_cases hk : k = u
      · subst hk
        simp [storeSet]
      · have hne : ¬u = k := fun h => hk h.symm
        by_cases hmem : u ∈ rest.map Prod.fst
        · simp [storeSet, hk, ih, hmem, hne]
        · simp [storeSet, hk, ih, hmem, hne]

/-- `countKey` is the multiplicity of the user in the key list. -/
theorem countKey_eq_count (st : PendingStore) (u : String) :
    countKey st u = (st.map Prod.fst).count u := by
  induction st with
  | nil => rfl
  | cons e rest ih =>
      obtain ⟨k, v⟩ := e
      by_cases hk : k = u
      · subst hk
        simp [countKey, List.filter_cons, List.count_cons] at ih ⊢
        simpa [countKey] using ih
      · have hk2 : (k == u) = false := by simp [hk]
        simp [countKey, List.filter_cons, List.count_cons, hk2, hk] at ih ⊢
        simpa [countKey] using ih

/-- `storeSet` keeps the `Map` invariant of unique keys. -/
theorem storeNodupKeys_storeSet (st : PendingStore) (u : String)
    (s : PendingState) (h : storeNodupKeys st) :
    storeNodupKeys (storeSet st u s) := by
  rw [storeNodupKeys, keys_storeSet]
  by_cases hmem : u ∈ st.map Prod.fst
  · simpa [hmem] using h
  · rw [if_neg hmem]
    rw [List.nodup_append]
    exact ⟨h, List.nodup_singleton u, by simpa using hmem⟩

/-- On a store with unique keys, `storeSet` leaves exactly one entry for
the written key. -/
theorem countKey_storeSet (st : PendingStore) (u : String) (s : PendingState)
    (h : storeNodupKeys st) : countKey (storeSet st u s) u = 1 := by
  rw [countKey_eq_count, keys_storeSet]
  by_cases hmem : u ∈ st.map Prod.fst
  · rw [if_pos hmem]
    exact List.count_eq_one_of_mem h hmem
  · rw [if_neg hmem]
    rw [List.count_append]
    simp [List.count_eq_zero_of_not_mem hmem]

/-- An ambiguous search (two or more matches) stores the top five and asks
for a selection. -/
theorem scoutclubCommand_ambiguous (st : PendingStore) (u q : String)
    (found : List ClubCandidate) (h : 2 ≤ found.length) :
    scoutclubCommand st u q found =
      (.askSelection (found.take 5), storeSet st u ⟨q, found.take 5⟩) := by
  match found with
  | [] => simp at h
  | [c] => simp at h
  | a :: b :: rest => rfl

/-- Claim C6: when the search yields exactly one candidate, the `/scoutclub`
handler proceeds directly to report generation for that candidate and the
`pendingScoutChoices` store is left unchanged — no pending entry is
created for the requesting user. -/
theorem singleMatch_reports_without_pending (st : PendingStore)
    (u q : String) (c : ClubCandidate) :
    scoutclubCommand st u q [c] = (.singleReport c, st) := rfl

/-- Claim C4 (counterexample): with a pending entry holding one candidate,
a selection with the out-of-range index 3 is rejected as invalid but the
entry is NOT consumed — the store is unchanged and the same user still has
the same pending entry, so the stale entry can be replayed. -/
theorem invalidIndex_keeps_pending_cex :
    (scoutclubPick [("u", ⟨"fc", [⟨"common-gen5", "1", .str "A", .null, .null, .null⟩]⟩)] "u" 3).1
        = SelectOutcome.invalidSelection
    ∧ (scoutclubPick [("u", ⟨"fc", [⟨"common-gen5", "1", .str "A", .null, .null, .null⟩]⟩)] "u" 3).2
        = [("u", ⟨"fc", [⟨"common-gen5", "1", .str "A", .null, .null, .null⟩]⟩)]
    ∧ storeGet (scoutclubPick [("u", ⟨"fc", [⟨"common-gen5", "1", .str "A", .null, .null, .null⟩]⟩)] "u" 3).2 "u"
        = some ⟨"fc", [⟨"common-gen5", "1", .str "A", .null, .null, .null⟩]⟩ :=
  ⟨rfl, rfl, rfl⟩

/-- Claim C4 (amended): when a pending entry exists for the user but the
supplied index is out of range for the stored candidate list, the
`scoutclub_pick` handler rejects the selection as invalid and leaves the
pending entry in place (it is consumed only by a valid selection). -/
theorem invalidIndex_rejects_and_keeps_entry (st : PendingStore)
    (u : String) (i : Nat) (state : PendingState)
    (hget : storeGet st u = some state)
    (hidx : state.results[i]? = none) :
    scoutclubPick st u i = (.invalidSelection, st) := by
  simp [scoutclubPick, hget, hidx]

/-- Witness for the amended claim C4 at a concrete store and index. -/
theorem invalidIndex_rejects_and_keeps_entry_witness :
    scoutclubPick [("u", ⟨"fc", [⟨"common-gen5", "1", .str "A", .null, .null, .null⟩]⟩)] "u" 7
      = (.invalidSelection,
         [("u", ⟨"fc", [⟨"common-gen5", "1", .str "A", .null, .null, .null⟩]⟩)]) :=
  invalidIndex_rejects_and_keeps_entry _ "u" 7
    ⟨"fc", [⟨"common-gen5", "1", .str "A", .null, .null, .null⟩]⟩ rfl rfl

/-- Claim C5: after two consecutive ambiguous searches by the same user,
exactly one pending entry remains for that user — the one holding the
second search's top five — and any selection that resolves does so against
the second search's stored list, never the overwritten first one. -/
theorem secondSearch_overwrites_pending (st : PendingStore)
    (hnd : storeNodupKeys st) (u q1 q2 : String)
    (m1 m2 : List ClubCandidate) (h1 : 2 ≤ m1.length) (h2 : 2 ≤ m2.length) :
    countKey (scoutclubCommand (scoutclubCommand st u q1 m1).2 u q2 m2).2 u = 1
    ∧ storeGet (scoutclubCommand (scoutclubCommand st u q1 m1).2 u q2 m2).2 u
        = some ⟨q2, m2.take 5⟩
    ∧ ∀ i c,
        (scoutclubPick (scoutclubCommand (scoutclubCommand st u q1 m1).2 u q2 m2).2 u i).1
          = .resolvedPick c → (m2.take 5)[i]? = some c := by
  rw [scoutclubCommand_ambiguous st u q1 m1 h1]
  rw [scoutclubCommand_ambiguous _ u q2 m2 h2]
  have hnd1 : storeNodupKeys (storeSet st u ⟨q1, m1.take 5⟩) :=
    storeNodupKeys_storeSet st u _ hnd
  refine ⟨countKey_storeSet _ u _ hnd1, storeGet_storeSet_self _ u _, ?_⟩
  intro i c hres
  rw [scoutclubPick] at hres
  rw [storeGet_storeSet_self] at hres
  cases hidx : (m2.take 5)[i]? with
  | none =>
      simp only [hidx] at hres
      exact absurd hres (by simp)
  | some c0 =>
      simp only [hidx] at hres
      simp only [SelectOutcome.resolvedPick.injEq] at hres
      rw [hres]

/-- Witness for claim C5 at a concrete pair of ambiguous searches. -/
theorem secondSearch_overwrites_pending_witness :
    countKey (scoutclubCommand (scoutclubCommand [] "u" "q1"
        [⟨"common-gen5", "1", .str "A", .null, .null, .null⟩,
         ⟨"common-gen5", "2", .str "B", .null, .null, .null⟩]).2 "u" "q2"
        [⟨"common-gen4", "3", .str "C", .null, .null, .null⟩,
         ⟨"common-gen4", "4", .str "D", .null, .null, .null⟩]).2 "u" = 1 :=
  (secondSearch_overwrites_pending [] (by simp [storeNodupKeys]) "u" "q1" "q2"
    _ _ (by simp) (by simp)).1

/-! ## computeRecord (claim C9) -/

/-- Claim C9: `computeRecord` returns `null` for any non-array input; on an
array it returns a record whose `played` tally is exactly
`wins + draws + losses` and whose `goalDiff` is exactly
`goalsFor - goalsAgainst`; and a match record that is falsy, lacks a
`clubs` object, or has no entry for the given club id contributes to no
tally. -/
theorem computeRecord_tallies (ms : JValue) (clubId : String) :
    (isArrayJ ms = false → computeRecord ms clubId = none)
    ∧ (∀ rec, computeRecord ms clubId = some rec →
        rec.played = rec.wins + rec.draws + rec.losses
        ∧ rec.goalDiff = rec.goalsFor - rec.goalsAgainst)
    ∧ (∀ m rest, skipMatch clubId m = true →
        computeRecord (.arr (m :: rest)) clubId
          = computeRecord (.arr rest) clubId) := by
  refine ⟨?_, ?_, ?_⟩
  · intro h
    cases ms with
    | arr items => simp [isArrayJ] at h
    | null => rfl
    | bool b => rfl
    | num n => rfl
    | str s => rfl
    | obj fields => rfl
    | circular => rfl
  · intro rec hrec
    cases ms with
    | arr items =>
        rw [computeRecord] at hrec
        obtain ⟨w, d, l, gf, ga⟩ :
            Nat × Nat × Nat × Int × Int :=
          items.foldl (computeRecordStep clubId) (0, 0, 0, 0, 0)
        simp only [Option.some.injEq] at hrec
        subst hrec
        exact ⟨rfl, rfl⟩
    | null => simp [computeRecord] at hrec
    | bool b => simp [computeRecord] at hrec
    | num n => simp [computeRecord] at hrec
    | str s => simp [computeRecord] at hrec
    | obj fields => simp [computeRecord] at hrec
    | circular => simp [computeRecord] at hrec
  · intro m rest hskip
    simp [computeRecord, List.foldl, computeRecordStep, hskip]

/-- Witness for claim C9: a concrete two-record history where the second
record lacks the club entry and is skipped; the tallies still balance. -/
theorem computeRecord_tallies_witness :
    computeRecord
        (.arr [JValue.null,
               .obj [("clubs", .obj [("5", .obj [("goals", .num 2)]),
                                     ("9", .obj [("goals", .num 1)])])]])
        "5"
      = computeRecord
          (.arr [.obj [("clubs", .obj [("5", .obj [("goals", .num 2)]),
                                       ("9", .obj [("goals", .num 1)])])]])
          "5"
    ∧ (isArrayJ (JValue.str "x") = false → computeRecord (.str "x") "5" = none) :=
  ⟨(computeRecord_tallies (.arr [JValue.null,
      .obj [("clubs", .obj [("5", .obj [("goals", .num 2)]),
                            ("9", .obj [("goals", .num 1)])])]]) "5").2.2
      JValue.null _ rfl,
   (computeRecord_tallies (.str "x") "5").1⟩

/-! ## safeJsonStringify totality and bounds (claim C10) -/

/-- A `slice(0, n)` result never exceeds `n` characters. -/
theorem jsSlice_length_le (s : String) (n : Nat) :
    (jsSlice s n).length ≤ n := by
  show (s.data.take n).length ≤ n
  rw [List.length_take]
  exact min_le_left n s.data.length

/-- Claim C10: `safeJsonStringify` is a total function of its input; with a
positive `maxChars` the result never exceeds `maxChars` characters, with an
absent/zero `maxChars` the full JSON serialization is returned, and when
`JSON.stringify` itself throws the `String(obj || '')` fallback (cut at
`maxChars || 8000`) is returned, of length at most 8000 in the absent case. -/
theorem safeJsonStringify_bounds (v : JValue) (b : Nat) :
    (0 < b → (safeJsonStringify v b).length ≤ b)
    ∧ (∀ s, jsonStringifyCore v = some s → safeJsonStringify v 0 = s)
    ∧ (jsonStringifyCore v = none → (safeJsonStringify v 0).length ≤ 8000) := by
  refine ⟨?_, ?_, ?_⟩
  · intro hb
    cases hcore : jsonStringifyCore v with
    | some s =>
        simp only [safeJsonStringify, hcore]
        rw [if_neg (Nat.pos_iff_ne_zero.mp hb)]
        by_cases hlen : s.length > b
        · rw [if_pos hlen]
          exact jsSlice_length_le s b
        · rw [if_neg hlen]
          exact Nat.le_of_not_lt hlen
    | none =>
        simp only [safeJsonStringify, hcore]
        rw [if_neg (Nat.pos_iff_ne_zero.mp hb)]
        exact jsSlice_length_le _ b
  · intro s hcore
    simp only [safeJsonStringify, hcore]
    simp
  · intro hcore
    simp only [safeJsonStringify, hcore]
    exact jsSlice_length_le _ 8000

/-- Witness for claim C10 at concrete inputs, including a value on which
serialization throws. -/
theorem safeJsonStringify_bounds_witness :
    (safeJsonStringify (.str "hello world") 3).length ≤ 3
    ∧ safeJsonStringify (.num 7) 0 = "7"
    ∧ (safeJsonStringify .circular 0).length ≤ 8000 :=
  ⟨(safeJsonStringify_bounds (.str "hello world") 3).1 (by decide),
   (safeJsonStringify_bounds (.num 7) 0).2.1 "7" rfl,
   (safeJsonStringify_bounds .circular 0).2.2 rfl⟩

/-! ## Match-history caps (claim C7) -/

/-- Claim C7 (counterexample): the cap claim is false on
`src/unnamed/part_000` — for a 21-record match array and the in-range
numeric club id `"5"`, the `matchesData[clubId]` probe hits a truthy match
record, `Array.isArray` then fails on that record, and `fetchClubData`
returns the EMPTY match history instead of the most-recent 20 records. -/
theorem matchHistory_cap_hit_cex :
    20 < (List.replicate 21 (JValue.obj [("home", JValue.num 1)])).length
    ∧ (V1.fetchClubData "5" .null .null
        (.arr (List.replicate 21 (JValue.obj [("home", JValue.num 1)])))).2.2
      = []
    ∧ (V1.fetchClubData "5" .null .null
        (.arr (List.replicate 21 (JValue.obj [("home", JValue.num 1)])))).2.2
      ≠ (List.replicate 21 (JValue.obj [("home", JValue.num 1)])).take 20 := by
  refine ⟨by simp, rfl, ?_⟩
  intro h
  rw [show (V1.fetchClubData "5" .null .null
      (.arr (List.replicate 21 (JValue.obj [("home", JValue.num 1)])))).2.2
      = ([] : List JValue) from rfl] at h
  have hlen := congrArg List.length h
  simp at hlen

/-- Claim C7 (amended): `src/unnamed/part_001` caps each match-type
independently and exactly as claimed: an over-cap division history is cut
to the most-recent 20 records and an over-cap cup history to the
most-recent 10, each a prefix of the upstream most-recent-first sequence.
In `src/unnamed/part_000`, the assembled league history always holds at
most 20 records, but which records depends on the `matchesData[clubId]`
index probe into the match array: when the probe misses (falsy hit, e.g.
an out-of-range club id) the payload is exactly the most-recent 20 in
upstream order; when the numeric club id indexes a truthy non-array match
record, the history degrades to the empty list instead. -/
theorem matchHistory_caps_amended (ldiv lcup lraw : List JValue)
    (clubId : String) (infoData overallData : JValue)
    (hdiv : 20 < ldiv.length) (hcup : 10 < lcup.length)
    (hraw : 20 < lraw.length) :
    (V2.recentDivMatches (.arr ldiv) = ldiv.take 20
      ∧ (V2.recentDivMatches (.arr ldiv)).length = 20
      ∧ ∃ t, V2.recentDivMatches (.arr ldiv) ++ t = ldiv)
    ∧ (V2.recentCupMatches (.arr lcup) = lcup.take 10
      ∧ (V2.recentCupMatches (.arr lcup)).length = 10
      ∧ ∃ t, V2.recentCupMatches (.arr lcup) ++ t = lcup)
    ∧ ((V1.fetchClubData clubId infoData overallData (.arr lraw)).2.2).length ≤ 20
    ∧ (truthy (jsGet (.arr lraw) clubId) = false →
        (V1.fetchClubData clubId infoData overallData (.arr lraw)).2.2
          = lraw.take 20
        ∧ ((V1.fetchClubData clubId infoData overallData (.arr lraw)).2.2).length
          = 20
        ∧ ∃ t, (V1.fetchClubData clubId infoData overallData (.arr lraw)).2.2 ++ t
            = lraw)
    ∧ (truthy (jsGet (.arr lraw) clubId) = true →
        isArrayJ (jsGet (.arr lraw) clubId) = false →
        (V1.fetchClubData clubId infoData overallData (.arr lraw)).2.2 = []) := by
  obtain ⟨g, hg⟩ : ∃ g, jsGet (.arr lraw) clubId = g := ⟨_, rfl⟩
  have hchar1 : truthy g = false →
      (V1.fetchClubData clubId infoData overallData (.arr lraw)).2.2
        = lraw.take 20 := by
    intro hmiss
    simp only [V1.fetchClubData, jsOr]
    rw [hg]
    cases g <;> simp_all [truthy, isArrayJ]
  have hchar2 : ∀ l2, g = .arr l2 →
      (V1.fetchClubData clubId infoData overallData (.arr lraw)).2.2
        = l2.take 20 := by
    intro l2 hgeq
    subst hgeq
    simp only [V1.fetchClubData, jsOr]
    rw [hg]
    simp [truthy, isArrayJ]
  have hchar3 : truthy g = true → isArrayJ g = false →
      (V1.fetchClubData clubId infoData overallData (.arr lraw)).2.2
        = [] := by
    intro ht hnarr
    simp only [V1.fetchClubData, jsOr]
    rw [hg]
    cases g <;> simp_all [truthy, isArrayJ]
  rw [hg]
  refine ⟨⟨rfl, ?_, ⟨ldiv.drop 20, List.take_append_drop 20 ldiv⟩⟩,
          ⟨rfl, ?_, ⟨lcup.drop 10, List.take_append_drop 10 lcup⟩⟩,
          ?_, ?_, ?_⟩
  · show (ldiv.take 20).length = 20
    rw [List.length_take]
    exact Nat.min_eq_left (Nat.le_of_lt hdiv)
  · show (lcup.take 10).length = 10
    rw [List.length_take]
    exact Nat.min_eq_left (Nat.le_of_lt hcup)
  · by_cases ht : truthy g = true
    · cases g with
      | arr l2 =>
          rw [hchar2 l2 rfl, List.length_take]
          exact min_le_left 20 l2.length
      | null => simp [truthy] at ht
      | bool b =>
          cases b
          · simp [truthy] at ht
          · rw [hchar3 ht rfl]
            simp
      | num n =>
          rw [hchar3 ht rfl]
          simp
      | str t =>
          rw [hchar3 ht rfl]
          simp
      | obj f =>
          rw [hchar3 ht rfl]
          simp
      | circular =>
          rw [hchar3 ht rfl]
          simp
    · rw [hchar1 (by simpa using ht), List.length_take]
      exact min_le_left 20 lraw.length
  · intro hmiss
    have hfall := hchar1 hmiss
    refine ⟨hfall, ?_,
      ⟨lraw.drop 20, by rw [hfall]; exact List.take_append_drop 20 lraw⟩⟩
    rw [hfall, List.length_take]
    exact Nat.min_eq_left (Nat.le_of_lt hraw)
  · intro ht hnarr
    exact hchar3 ht hnarr

/-- Witness for the amended claim C7 at concrete over-cap histories: the
part_001 caps, the part_000 cap with a missing probe (out-of-range club
id), and the degradation to empty on a truthy non-array probe hit. -/
theorem matchHistory_caps_amended_witness :
    (V2.recentDivMatches (.arr (List.replicate 21 JValue.null))).length = 20
    ∧ (V2.recentCupMatches (.arr (List.replicate 11 JValue.null))).length = 10
    ∧ ((V1.fetchClubData "99" .null .null
        (.arr (List.replicate 21 JValue.null))).2.2).length = 20
    ∧ (V1.fetchClubData "5" .null .null
        (.arr (List.replicate 21 (JValue.obj [("home", JValue.num 1)])))).2.2
      = [] :=
  ⟨(matchHistory_caps_amended (List.replicate 21 .null)
      (List.replicate 11 .null) (List.replicate 21 .null) "99" .null .null
      (by simp) (by simp) (by simp)).1.2.1,
   (matchHistory_caps_amended (List.replicate 21 .null)
      (List.replicate 11 .null) (List.replicate 21 .null) "99" .null .null
      (by simp) (by simp) (by simp)).2.1.2.1,
   ((matchHistory_caps_amended (List.replicate 21 .null)
      (List.replicate 11 .null) (List.replicate 21 .null) "99" .null .null
      (by simp) (by simp) (by simp)).2.2.2.1 rfl).2.1,
   (matchHistory_caps_amended (List.replicate 21 .null)
      (List.replicate 11 .null)
      (List.replicate 21 (JValue.obj [("home", JValue.num 1)])) "5" .null .null
      (by simp) (by simp) (by simp)).2.2.2.2 rfl rfl⟩

/-! ## Search absorbs all partition failures (claim C8) -/

/-- Claim C8: the search operation never surfaces an error — it is a total
function into candidate lists. A partition whose fetch threw (network
error/timeout) or returned a non-success status contributes an empty result,
and when every partition fails the overall search returns the empty list,
the only failure signal callers can observe. -/
theorem search_absorbs_failures (query : String)
    (fetch : String → FetchOutcome) :
    (∀ (q p : String) (o : FetchOutcome), fetchFailed o = true →
        partitionRows q p o = [])
    ∧ ((∀ p ∈ FC_PLATFORMS, fetchFailed (fetch p) = true) →
        searchClubsAcrossPlatforms query fetch = []) := by
  have habs : ∀ (q p : String) (o : FetchOutcome), fetchFailed o = true →
      partitionRows q p o = [] := by
    intro q p o ho
    cases o with
    | netError => rfl
    | response status body =>
        rw [fetchFailed] at ho
        simp [partitionRows, ho]
  refine ⟨habs, ?_⟩
  intro hall
  rw [searchClubsAcrossPlatforms]
  by_cases hq : query.trim = ""
  · simp [hq]
  · rw [if_neg hq]
    have h5 := habs query.trim "common-gen5" (fetch "common-gen5")
      (hall "common-gen5" (by simp [FC_PLATFORMS]))
    have h4 := habs query.trim "common-gen4" (fetch "common-gen4")
      (hall "common-gen4" (by simp [FC_PLATFORMS]))
    simp [FC_PLATFORMS, resolveDedup, h5, h4, dedupClubs]

/-- Witness for claim C8: a query where both platform requests time out
yields the empty candidate list. -/
theorem search_absorbs_failures_witness :
    searchClubsAcrossPlatforms "arsenal" (fun _ => .netError) = [] :=
  (search_absorbs_failures "arsenal" (fun _ => .netError)).2
    (fun _ _ => rfl)

/-! ## Insufficient-data gate (claim C2) -/

/-- Claim C2: with the API key present, if every stats fetch (overall
stats, playoff achievements, member career stats, member season stats) and
every match-history fetch (league, playoff, friendly) settled to `null` or
empty data, `createScoutingReportFromId` throws the error coded
`insufficient_data` before any OpenAI request; if at least one of those
seven payloads is non-empty, it proceeds to the OpenAI call. -/
theorem insufficientData_gate (fcPlatform clubId displayName : String)
    (seed : JValue) (r : SettledResponses) :
    ((∀ v ∈ [safeData r.overallStats, safeData r.playoffAchievements,
             safeData r.membersCareer, safeData r.membersSeason,
             safeData r.leagueMatches, safeData r.playoffMatches,
             safeData r.friendlyMatches], isNonEmpty v = false) →
      createScoutingReportFromId true fcPlatform clubId displayName seed r
        = .error .insufficientData)
    ∧ ((∃ v ∈ [safeData r.overallStats, safeData r.playoffAchievements,
               safeData r.membersCareer, safeData r.membersSeason,
               safeData r.leagueMatches, safeData r.playoffMatches,
               safeData r.friendlyMatches], isNonEmpty v = true) →
      ∃ rc, createScoutingReportFromId true fcPlatform clubId displayName seed r
        = .ok rc) := by
  constructor
  · intro h
    have h1 := h (safeData r.overallStats) (by simp)
    have h2 := h (safeData r.playoffAchievements) (by simp)
    have h3 := h (safeData r.membersCareer) (by simp)
    have h4 := h (safeData r.membersSeason) (by simp)
    have h5 := h (safeData r.leagueMatches) (by simp)
    have h6 := h (safeData r.playoffMatches) (by simp)
    have h7 := h (safeData r.friendlyMatches) (by simp)
    simp [createScoutingReportFromId, fetchClubData, statsValues,
      matchesValues, h1, h2, h3, h4, h5, h6, h7]
  · intro h
    have hcond :
        ((statsValues (fetchClubData clubId seed r).2.1).any isNonEmpty
          || (matchesValues (fetchClubData clubId seed r).2.2).any isNonEmpty)
          = true := by
      obtain ⟨v, hv, hne⟩ := h
      simp only [List.mem_cons, List.not_mem_nil, or_false] at hv
      rcases hv with rfl | rfl | rfl | rfl | rfl | rfl | rfl <;>
        simp [statsValues, matchesValues, fetchClubData, List.any, hne]
    have hneg :
        (!(statsValues (fetchClubData clubId seed r).2.1).any isNonEmpty
          && !(matchesValues (fetchClubData clubId seed r).2.2).any isNonEmpty)
          = false := by
      rw [← Bool.not_or, hcond]
      rfl
    exact ⟨{ displayName := displayName, clubId := clubId,
             fcPlatform := fcPlatform,
             infoStr := safeJsonStringify
               (infoPayloadJson (fetchClubData clubId seed r).1) 16000,
             statsStr := safeJsonStringify
               (statsPayloadJson (fetchClubData clubId seed r).2.1) 64000,
             matchesStr := safeJsonStringify
               (matchesPayloadJson (fetchClubData clubId seed r).2.2) 64000 },
           by simp [createScoutingReportFromId, hneg]⟩

/-- Witness for claim C2: all seven payloads settled empty for one club,
and a run where only the overall-stats payload is non-empty. -/
theorem insufficientData_gate_witness :
    createScoutingReportFromId true "common-gen5" "1" "x" .null
        ⟨none, none, none, none, none, none, none, none⟩
      = .error .insufficientData
    ∧ ∃ rc, createScoutingReportFromId true "common-gen5" "1" "x" .null
        ⟨none, some (.obj [("wins", .num 3)]), none, none, none, none, none,
         none⟩
      = .ok rc :=
  ⟨(insufficientData_gate "common-gen5" "1" "x" .null
      ⟨none, none, none, none, none, none, none, none⟩).1
      (by intro v hv; simp only [List.mem_cons, List.not_mem_nil, or_false] at hv
          rcases hv with rfl | rfl | rfl | rfl | rfl | rfl | rfl <;> rfl),
   (insufficientData_gate "common-gen5" "1" "x" .null
      ⟨none, some (.obj [("wins", .num 3)]), none, none, none, none, none,
       none⟩).2
      ⟨safeData (some (.obj [("wins", .num 3)])), by simp, rfl⟩⟩


end ScoutBot

namespace ScoutBot

/-! ## Resolver dedup (claim C1) -/

/-- The dedup loop output is a subsequence of its input: encounter order is
preserved. -/
theorem dedupClubs_sublist (l : List ClubCandidate) (seen : List String) :
    (dedupClubs l seen).Sublist l := by
  induction l generalizing seen with
  | nil => exact List.Sublist.refl []
  | cons r rest ih =>
      by_cases h : clubKey r ∈ seen
      · rw [dedupClubs, if_pos h]
        exact (ih seen).cons r
      · rw [dedupClubs, if_neg h]
        exact (ih (clubKey r :: seen)).cons₂ r

/-- No emitted candidate carries a key that was already marked as seen. -/
theorem dedupClubs_key_not_seen (l : List ClubCandidate) (seen : List String)
    (d : ClubCandidate) (hd : d ∈ dedupClubs l seen) : clubKey d ∉ seen := by
  induction l generalizing seen with
  | nil => simp [dedupClubs] at hd
  | cons r rest ih =>
      by_cases h : clubKey r ∈ seen
      · rw [dedupClubs, if_pos h] at hd
        exact ih seen hd
      · rw [dedupClubs, if_neg h] at hd
        rcases List.mem_cons.mp hd with rfl | hd
        · exact h
        · have hrec := ih (clubKey r :: seen) hd
          intro hmem
          exact hrec (List.mem_cons.mpr (Or.inr hmem))

/-- The dedup loop emits pairwise distinct keys. -/
theorem dedupClubs_keys_nodup (l : List ClubCandidate) (seen : List String) :
    ((dedupClubs l seen).map clubKey).Nodup := by
  induction l generalizing seen with
  | nil => simp [dedupClubs]
  | cons r rest ih =>
      by_cases h : clubKey r ∈ seen
      · rw [dedupClubs, if_pos h]
        exact ih seen
      · rw [dedupClubs, if_neg h]
        rw [List.map_cons, List.nodup_cons]
        refine ⟨fun hmem => ?_, ih (clubKey r :: seen)⟩
        obtain ⟨d, hd, hkey⟩ := List.mem_map.mp hmem
        have := dedupClubs_key_not_seen rest (clubKey r :: seen) d hd
        exact this (by rw [hkey]; exact List.mem_cons_self _ _)

/-- Every input key is represented: it was already seen, or some emitted
candidate carries it. -/
theorem dedupClubs_covers (l : List ClubCandidate) (seen : List String)
    (c : ClubCandidate) (hc : c ∈ l) :
    clubKey c ∈ seen ∨ ∃ d ∈ dedupClubs l seen, clubKey d = clubKey c := by
  induction l generalizing seen with
  | nil => simp at hc
  | cons r rest ih =>
      rcases List.mem_cons.mp hc with rfl | hc
      · by_cases h : clubKey c ∈ seen
        · exact Or.inl h
        · refine Or.inr ⟨c, ?_, rfl⟩
          rw [dedupClubs, if_neg h]
          exact List.mem_cons_self _ _
      · by_cases h : clubKey r ∈ seen
        · rcases ih seen hc with hs | ⟨d, hd, hkey⟩
          · exact Or.inl hs
          · refine Or.inr ⟨d, ?_, hkey⟩
            rw [dedupClubs, if_pos h]
            exact hd
        · rcases ih (clubKey r :: seen) hc with hs | ⟨d, hd, hkey⟩
          · rcases List.mem_cons.mp hs with heq | hs
            · refine Or.inr ⟨r, ?_, heq.symm⟩
              rw [dedupClubs, if_neg h]
              exact List.mem_cons_self _ _
            · exact Or.inl hs
          · refine Or.inr ⟨d, ?_, hkey⟩
            rw [dedupClubs, if_neg h]
            exact List.mem_cons.mpr (Or.inr hd)

/-- First-occurrence wins: each emitted candidate is exactly the first
input element carrying its key. -/
theorem dedupClubs_first (l : List ClubCandidate) (seen : List String)
    (d : ClubCandidate) (hd : d ∈ dedupClubs l seen) :
    l.find? (fun c => clubKey c == clubKey d) = some d := by
  induction l generalizing seen with
  | nil => simp [dedupClubs] at hd
  | cons r rest ih =>
      by_cases h : clubKey r ∈ seen
      · rw [dedupClubs, if_pos h] at hd
        have hne : clubKey r ≠ clubKey d := by
          intro heq
          exact dedupClubs_key_not_seen rest seen d hd (heq ▸ h)
        rw [List.find?_cons_of_neg _ (by simpa using hne)]
        exact ih seen hd
      · rw [dedupClubs, if_neg h] at hd
        rcases List.mem_cons.mp hd with rfl | hd
        · exact List.find?_cons_of_pos _ (by simp)
        · have hne : clubKey r ≠ clubKey d := by
            intro heq
            exact dedupClubs_key_not_seen rest (clubKey r :: seen) d hd
              (heq ▸ List.mem_cons_self _ _)
          rw [List.find?_cons_of_neg _ (by simpa using hne)]
          exact ih (clubKey r :: seen) hd

/-- `find?` only depends on the predicate's values on the list. -/
theorem find?_congr_on {α : Type} (l : List α) (p q : α → Bool)
    (h : ∀ x ∈ l, p x = q x) : l.find? p = l.find? q := by
  induction l with
  | nil => rfl
  | cons a rest ih =>
      have ha := h a (List.mem_cons_self _ _)
      cases hq : q a with
      | true =>
          rw [List.find?_cons_of_pos _ (ha.trans hq),
              List.find?_cons_of_pos _ hq]
      | false =>
          rw [List.find?_cons_of_neg _ (by simp [ha, hq]),
              List.find?_cons_of_neg _ (by simp [hq])]
          exact ih (fun x hx => h x (List.mem_cons.mpr (Or.inr hx)))

/-- Strings with equal character data are equal. -/
theorem string_eq_of_data (a b : String) (h : a.data = b.data) : a = b := by
  cases a
  cases b
  exact congrArg String.mk h

/-- Splitting a `p ++ ":" ++ c` key is unambiguous when the two prefixes
have equal length. -/
theorem key_append_inj (p1 p2 c1 c2 : String) (hlen : p1.length = p2.length)
    (h : p1 ++ ":" ++ c1 = p2 ++ ":" ++ c2) : p1 = p2 ∧ c1 = c2 := by
  have hd : (p1.data ++ [':']) ++ c1.data = (p2.data ++ [':']) ++ c2.data :=
    congrArg String.data h
  have hlen2 : (p1.data ++ [':']).length = (p2.data ++ [':']).length := by
    simp only [List.length_append, List.length_singleton]
    exact congrArg (· + 1) hlen
  obtain ⟨h1, h2⟩ := List.append_inj hd hlen2
  obtain ⟨h3, _⟩ := List.append_inj h1 (by simpa using hlen)
  exact ⟨string_eq_of_data _ _ h3, string_eq_of_data _ _ h2⟩

/-- On candidates whose platform tag comes from `FC_PLATFORMS`, the string
key `fcPlatform ++ ":" ++ clubId` determines the pair. -/
theorem clubKey_inj (c d : ClubCandidate)
    (hc : c.fcPlatform ∈ FC_PLATFORMS) (hd : d.fcPlatform ∈ FC_PLATFORMS)
    (h : clubKey c = clubKey d) :
    c.fcPlatform = d.fcPlatform ∧ c.clubId = d.clubId := by
  have hlen : c.fcPlatform.length = d.fcPlatform.length := by
    simp only [FC_PLATFORMS, List.mem_cons, List.not_mem_nil, or_false] at hc hd
    rcases hc with hc | hc <;> rcases hd with hd | hd <;> rw [hc, hd] <;> decide
  exact key_append_inj _ _ _ _ hlen h

/-- Claim C1: for every collection of per-partition search results, the
resolver's dedup stage returns each `(fcPlatform, clubId)` pair exactly
once — the emitted pairs are distinct and cover every input pair — keeping
the first occurrence of each pair and preserving the encounter order of the
concatenated partition results (the output is a subsequence of the input).
The platform-membership hypothesis reflects that the search loop only ever
pushes rows tagged with a platform from `FC_PLATFORMS`. -/
theorem resolver_dedups_by_platform_club (parts : List (List ClubCandidate))
    (hplat : ∀ c ∈ parts.flatten, c.fcPlatform ∈ FC_PLATFORMS) :
    (resolveDedup parts).Sublist parts.flatten
    ∧ ((resolveDedup parts).map fun c => (c.fcPlatform, c.clubId)).Nodup
    ∧ (∀ c ∈ parts.flatten, ∃ d ∈ resolveDedup parts,
        d.fcPlatform = c.fcPlatform ∧ d.clubId = c.clubId)
    ∧ (∀ d ∈ resolveDedup parts,
        parts.flatten.find?
          (fun c => c.fcPlatform == d.fcPlatform && c.clubId == d.clubId)
          = some d) := by
  have hsub : (resolveDedup parts).Sublist parts.flatten :=
    dedupClubs_sublist parts.flatten []
  refine ⟨hsub, ?_, ?_, ?_⟩
  · refine List.Nodup.of_map (fun pr => pr.1 ++ ":" ++ pr.2) ?_
    rw [List.map_map]
    exact dedupClubs_keys_nodup parts.flatten []
  · intro c hc
    rcases dedupClubs_covers parts.flatten [] c hc with habs | ⟨d, hd, hkey⟩
    · simp at habs
    · have hdmem : d ∈ parts.flatten := hsub.subset hd
      exact ⟨d, hd, clubKey_inj d c (hplat d hdmem) (hplat c hc) hkey⟩
  · intro d hd
    have hfind := dedupClubs_first parts.flatten [] d hd
    have hdmem : d ∈ parts.flatten := hsub.subset hd
    rw [← hfind]
    apply find?_congr_on
    intro x hx
    rw [Bool.eq_iff_iff]
    simp only [Bool.and_eq_true, beq_iff_eq]
    constructor
    · intro hp
      rw [clubKey, clubKey, hp.1, hp.2]
    · intro hk
      exact clubKey_inj x d (hplat x hx) (hplat d hdmem) hk

/-- Witness for claim C1 on concrete partition results containing a
duplicate `(fcPlatform, clubId)` pair across partitions. -/
theorem resolver_dedups_by_platform_club_witness :
    ((resolveDedup
        [[⟨"common-gen5", "1", .str "A", .null, .null, .null⟩,
          ⟨"common-gen4", "1", .str "B", .null, .null, .null⟩],
         [⟨"common-gen5", "1", .str "A2", .null, .null, .null⟩]]).map
        fun c => (c.fcPlatform, c.clubId)).Nodup :=
  (resolver_dedups_by_platform_club
    [[⟨"common-gen5", "1", .str "A", .null, .null, .null⟩,
      ⟨"common-gen4", "1", .str "B", .null, .null, .null⟩],
     [⟨"common-gen5", "1", .str "A2", .null, .null, .null⟩]]
    (by intro c hc
        fin_cases hc <;> decide)).2.1

end ScoutBot

namespace ScoutBot

/-! ## Truncation of prompt sections (claim C3) -/

/-- A run of `n` copies of the character `a`. -/
def aStr (n : Nat) : String :=
  String.mk (List.replicate n 'a')

/-- Length of an `a`-run. -/
theorem aStr_length (n : Nat) : (aStr n).length = n := by
  show (List.replicate n 'a').length = n
  simp

/-- The JSON escape fixes `a`-runs. -/
theorem escString_aStr (n : Nat) : escString (aStr n) = aStr n := by
  induction n with
  | zero => rfl
  | succ m ih =>
      show escChar 'a' ++ escChars (List.replicate m 'a') = aStr (m + 1)
      have hech : escChar 'a' = "a" := by decide
      have hrest : escChars (List.replicate m 'a') = aStr m := ih
      rw [hech, hrest]
      apply string_eq_of_data
      show 'a' :: List.replicate m 'a' = List.replicate (m + 1) 'a'
      rw [List.replicate_succ]

/-- A string of length zero is the empty string. -/
theorem string_eq_empty_of_length (m : String) (h : m.length = 0) : m = "" := by
  cases m with
  | mk d =>
      have hd : d = [] := List.eq_nil_of_length_eq_zero h
      rw [hd]

/-- A serializable value whose JSON text does not exceed the (nonzero)
budget is embedded whole. -/
theorem safeJson_full (v : JValue) (b : Nat) (s : String) (hb : b ≠ 0)
    (hs : jsonStringifyCore v = some s) (h : s.length ≤ b) :
    safeJsonStringify v b = s := by
  simp only [safeJsonStringify, hs]
  rw [if_neg hb, if_neg (by omega)]

/-- A serializable value whose JSON text exceeds the (nonzero) budget is
cut to the slice of exactly the budget length — nothing is appended. -/
theorem safeJson_cut (v : JValue) (b : Nat) (s : String) (hb : b ≠ 0)
    (hs : jsonStringifyCore v = some s) (h : b < s.length) :
    safeJsonStringify v b = jsSlice s b := by
  simp only [safeJsonStringify, hs]
  rw [if_neg hb, if_pos (by omega)]

/-- The exact length of a slice that cuts inside the string. -/
theorem jsSlice_length_of_le (s : String) (b : Nat) (h : b ≤ s.length) :
    (jsSlice s b).length = b := by
  show (s.data.take b).length = b
  rw [List.length_take]
  exact Nat.min_eq_left h

/-- Claim C3 as stated, as a proposition about the assembled prompt: every
section (info at budget 16000, stats and match history at budget 64000)
whose serialized JSON exceeds its budget appears in the prompt as the
budget-length cut PLUS a non-empty truncation marker, making a truncated
section distinguishable. (This mirrors the claim's wording; the code is
checked against it below.) -/
def truncationMarkerClaim : Prop :=
  ∀ (fcPlatform clubId displayName : String) (seed : JValue)
    (r : SettledResponses) (rc : ReportCall),
    createScoutingReportFromId true fcPlatform clubId displayName seed r
      = .ok rc →
    (∀ s, jsonStringifyCore (infoPayloadJson (fetchClubData clubId seed r).1)
        = some s → 16000 < s.length →
        ∃ marker, marker ≠ "" ∧ rc.infoStr = jsSlice s 16000 ++ marker)
    ∧ (∀ s, jsonStringifyCore (statsPayloadJson (fetchClubData clubId seed r).2.1)
        = some s → 64000 < s.length →
        ∃ marker, marker ≠ "" ∧ rc.statsStr = jsSlice s 64000 ++ marker)
    ∧ (∀ s, jsonStringifyCore (matchesPayloadJson (fetchClubData clubId seed r).2.2)
        = some s → 64000 < s.length →
        ∃ marker, marker ≠ "" ∧ rc.matchesStr = jsSlice s 64000 ++ marker)

/-- The `ReportCall` record a successful `createScoutingReportFromId` run
builds (named here so proofs can refer to it). -/
def assembledReportCall (fcPlatform clubId displayName : String)
    (seed : JValue) (r : SettledResponses) : ReportCall :=
  { displayName := displayName, clubId := clubId, fcPlatform := fcPlatform,
    infoStr := safeJsonStringify
      (infoPayloadJson (fetchClubData clubId seed r).1) 16000,
    statsStr := safeJsonStringify
      (statsPayloadJson (fetchClubData clubId seed r).2.1) 64000,
    matchesStr := safeJsonStringify
      (matchesPayloadJson (fetchClubData clubId seed r).2.2) 64000 }

/-- Settled responses whose stats section serializes to more than 64000
characters (a 65000-character team-name-like string in the overall-stats
payload). -/
def cexResponses : SettledResponses :=
  ⟨none, some (.str (aStr 65000)), none, none, none, none, none, none⟩

/-- The prompt data assembled for `cexResponses`. -/
def cexCall : ReportCall :=
  assembledReportCall "common-gen5" "1" "x" .null cexResponses

/-- The serialized stats section of `cexResponses`, spelled as the
serializer produces it. -/
def cexStatsJson : String :=
  "\x7b" ++ ("\"" ++ "overallStats" ++ "\":" ++ ("\"" ++ aStr 65000 ++ "\"")
      ++ "," ++ ("\"" ++ "playoffAchievements" ++ "\":" ++ "null" ++ ","
      ++ ("\"" ++ "membersCareer" ++ "\":" ++ "null" ++ ","
      ++ ("\"" ++ "membersSeason" ++ "\":" ++ "null")))) ++ "\x7d"

/-- The stats payload of `cexResponses` serializes to `cexStatsJson`. -/
theorem cex_stats_stringify :
    jsonStringifyCore
        (statsPayloadJson (fetchClubData "1" .null cexResponses).2.1)
      = some cexStatsJson := by
  have e1 : escString "overallStats" = "overallStats" := by decide
  have e2 : escString "playoffAchievements" = "playoffAchievements" := by decide
  have e3 : escString "membersCareer" = "membersCareer" := by decide
  have e4 : escString "membersSeason" = "membersSeason" := by decide
  show jsonStringifyCore
      (statsPayloadJson ⟨.str (aStr 65000), .null, .null, .null⟩)
    = some cexStatsJson
  simp [statsPayloadJson, jsonStringifyCore, jsonObjItems, escString_aStr,
    e1, e2, e3, e4, cexStatsJson]

/-- The serialized stats section of the counterexample is 65088 characters
long — beyond the 64000-character budget. -/
theorem cex_stats_length : cexStatsJson.length = 65088 := by
  have l1 : ("\x7b" : String).length = 1 := rfl
  have l2 : ("\"" : String).length = 1 := rfl
  have l3 : ("overallStats" : String).length = 12 := rfl
  have l4 : ("\":" : String).length = 2 := rfl
  have l5 : ("," : String).length = 1 := rfl
  have l6 : ("playoffAchievements" : String).length = 19 := rfl
  have l7 : ("null" : String).length = 4 := rfl
  have l8 : ("membersCareer" : String).length = 13 := rfl
  have l9 : ("membersSeason" : String).length = 13 := rfl
  have l10 : ("\x7d" : String).length = 1 := rfl
  simp only [cexStatsJson, String.length_append, aStr_length,
    l1, l2, l3, l4, l5, l6, l7, l8, l9, l10]

set_option maxRecDepth 8192 in
/-- Claim C3 (counterexample): the truncation claim is false on the code —
at `cexResponses` the stats section exceeds its budget and is embedded as
the bare budget-length cut, leaving no room for any non-empty marker, so a
truncated section carries no signal. -/
theorem truncation_has_no_marker_cex : ¬ truncationMarkerClaim := by
  intro hclaim
  have hok : createScoutingReportFromId true "common-gen5" "1" "x" .null
      cexResponses = .ok cexCall := rfl
  have hlong : 64000 < cexStatsJson.length := by
    rw [cex_stats_length]
    omega
  obtain ⟨marker, hm, heq⟩ :=
    (hclaim "common-gen5" "1" "x" .null cexResponses cexCall hok).2.1
      cexStatsJson cex_stats_stringify hlong
  have hcut := safeJson_cut
    (statsPayloadJson (fetchClubData "1" .null cexResponses).2.1) 64000
    cexStatsJson (by omega) cex_stats_stringify hlong
  have h1 : cexCall = assembledReportCall "common-gen5" "1" "x" .null
      cexResponses := rfl
  rw [h1] at heq
  simp only [assembledReportCall] at heq
  rw [hcut] at heq
  have hlen := congrArg String.length heq
  rw [String.length_append] at hlen
  exact hm (string_eq_empty_of_length marker (by omega))

/-- Claim C3 (amended): a serialized section that fits its budget is
embedded whole; a section exceeding its budget is cut to exactly the budget
length with NO truncation marker appended — the cut is silent at the
section level (only the fixed prompt text warns that sections may be
truncated). Budgets are 16000 for info and 64000 for stats and match
history, per section independently. -/
theorem sections_cut_exactly_no_marker
    (fcPlatform clubId displayName : String) (seed : JValue)
    (r : SettledResponses) (rc : ReportCall)
    (hok : createScoutingReportFromId true fcPlatform clubId displayName seed r
      = .ok rc) :
    (∀ s, jsonStringifyCore (infoPayloadJson (fetchClubData clubId seed r).1)
        = some s →
        (s.length ≤ 16000 → rc.infoStr = s)
        ∧ (16000 < s.length →
            rc.infoStr = jsSlice s 16000 ∧ rc.infoStr.length = 16000))
    ∧ (∀ s, jsonStringifyCore (statsPayloadJson (fetchClubData clubId seed r).2.1)
        = some s →
        (s.length ≤ 64000 → rc.statsStr = s)
        ∧ (64000 < s.length →
            rc.statsStr = jsSlice s 64000 ∧ rc.statsStr.length = 64000))
    ∧ (∀ s, jsonStringifyCore (matchesPayloadJson (fetchClubData clubId seed r).2.2)
        = some s →
        (s.length ≤ 64000 → rc.matchesStr = s)
        ∧ (64000 < s.length →
            rc.matchesStr = jsSlice s 64000 ∧ rc.matchesStr.length = 64000)) := by
  have hrc : rc = assembledReportCall fcPlatform clubId displayName seed r := by
    simp only [createScoutingReportFromId, Bool.not_true] at hok
    split at hok
    · exact absurd hok (by simp)
    · split at hok
      · exact absurd hok (by simp)
      · exact (Except.ok.inj hok).symm
  subst hrc
  simp only [assembledReportCall]
  refine ⟨?_, ?_, ?_⟩ <;> intro s hs <;>
    refine ⟨fun hle => safeJson_full _ _ _ (by omega) hs hle,
            fun hlt => ⟨safeJson_cut _ _ _ (by omega) hs hlt, ?_⟩⟩ <;>
    rw [safeJson_cut _ _ _ (by omega) hs hlt] <;>
    exact jsSlice_length_of_le _ _ (Nat.le_of_lt hlt)

set_option maxRecDepth 8192 in
/-- Witness for the amended claim C3 at the concrete oversized stats
payload: the embedded stats section is exactly 64000 characters. -/
theorem sections_cut_exactly_no_marker_witness :
    cexCall.statsStr = jsSlice cexStatsJson 64000
    ∧ cexCall.statsStr.length = 64000 :=
  ((sections_cut_exactly_no_marker "common-gen5" "1" "x" .null cexResponses
      cexCall rfl).2.1 cexStatsJson cex_stats_stringify).2
    (by rw [cex_stats_length]; omega)

end ScoutBot
